import Mathlib

/-!
A verification development for a sharded key-value store codebase.  It embeds
two parts of the code base:

* the MySQL `Enum` / `EnumRef` value type from
  `components/tidb_query_datatype/src/codec/mysql/enums.rs`, together with the
  UTF-8 validation performed by the standard library functions it calls; and
* the region-merge admin-command state machine (PrepareMerge, CommitMerge,
  RollbackMerge, CompactLog, Split, conf changes).  Only the tests of that
  state machine are part of the sources at hand, so the state machine itself is
  modelled from the specification, definition by definition.

Byte strings are modelled as `List Nat`; a Rust panic is modelled as `none` of
an `Option`; fallible Rust functions return `Except`.
-/

/- ## UTF-8 validation (Rust `core::str::from_utf8` semantics) -/

/-- A UTF-8 continuation byte: `0x80 ..= 0xBF`. -/
def utf8Cont (b : Nat) : Bool := decide (0x80 ≤ b ∧ b ≤ 0xBF)

/-- Valid second byte of a three-byte sequence whose leading byte is `b0`
(per the table in Rust's `core::str::validations`). -/
def utf8Snd3 (b0 b1 : Nat) : Bool :=
  if b0 = 0xE0 then decide (0xA0 ≤ b1 ∧ b1 ≤ 0xBF)
  else if b0 = 0xED then decide (0x80 ≤ b1 ∧ b1 ≤ 0x9F)
  else utf8Cont b1

/-- Valid second byte of a four-byte sequence whose leading byte is `b0`. -/
def utf8Snd4 (b0 b1 : Nat) : Bool :=
  if b0 = 0xF0 then decide (0x90 ≤ b1 ∧ b1 ≤ 0xBF)
  else if b0 = 0xF4 then decide (0x80 ≤ b1 ∧ b1 ≤ 0x8F)
  else utf8Cont b1

/-- Whether a byte string is valid UTF-8, following the run of
`core::str::from_utf8` (`from_utf8` returns `Ok` exactly on such inputs). -/
def validUtf8 : List Nat → Bool
  | [] => true
  | b0 :: rest =>
    if b0 < 0x80 then validUtf8 rest
    else if 0xC2 ≤ b0 ∧ b0 ≤ 0xDF then
      match rest with
      | b1 :: rest1 => utf8Cont b1 && validUtf8 rest1
      | [] => false
    else if 0xE0 ≤ b0 ∧ b0 ≤ 0xEF then
      match rest with
      | b1 :: b2 :: rest2 => utf8Snd3 b0 b1 && utf8Cont b2 && validUtf8 rest2
      | _ => false
    else if 0xF0 ≤ b0 ∧ b0 ≤ 0xF4 then
      match rest with
      | b1 :: b2 :: b3 :: rest3 =>
        utf8Snd4 b0 b1 && utf8Cont b2 && utf8Cont b3 && validUtf8 rest3
      | _ => false
    else false

/-- The UTF-8 encoding of U+FFFD REPLACEMENT CHARACTER, emitted by
`String::from_utf8_lossy` for each maximal invalid subpart. -/
def urep : List Nat := [0xEF, 0xBF, 0xBD]

/-- The byte string produced by Rust's `String::from_utf8_lossy`: valid
characters are copied through, each maximal subpart of an ill-formed sequence
is replaced by one U+FFFD. -/
def utf8Lossy : List Nat → List Nat
  | [] => []
  | b0 :: rest =>
    if b0 < 0x80 then b0 :: utf8Lossy rest
    else if 0xC2 ≤ b0 ∧ b0 ≤ 0xDF then
      match rest with
      | [] => urep
      | b1 :: rest1 =>
        if utf8Cont b1 then b0 :: b1 :: utf8Lossy rest1
        else urep ++ utf8Lossy (b1 :: rest1)
    else if 0xE0 ≤ b0 ∧ b0 ≤ 0xEF then
      match rest with
      | [] => urep
      | b1 :: rest1 =>
        if utf8Snd3 b0 b1 then
          match rest1 with
          | [] => urep
          | b2 :: rest2 =>
            if utf8Cont b2 then b0 :: b1 :: b2 :: utf8Lossy rest2
            else urep ++ utf8Lossy (b2 :: rest2)
        else urep ++ utf8Lossy (b1 :: rest1)
    else if 0xF0 ≤ b0 ∧ b0 ≤ 0xF4 then
      match rest with
      | [] => urep
      | b1 :: rest1 =>
        if utf8Snd4 b0 b1 then
          match rest1 with
          | [] => urep
          | b2 :: rest2 =>
            if utf8Cont b2 then
              match rest2 with
              | [] => urep
              | b3 :: rest3 =>
                if utf8Cont b3 then b0 :: b1 :: b2 :: b3 :: utf8Lossy rest3
                else urep ++ utf8Lossy (b3 :: rest3)
            else urep ++ utf8Lossy (b2 :: rest2)
        else urep ++ utf8Lossy (b1 :: rest1)
    else urep ++ utf8Lossy rest
termination_by l => l.length
decreasing_by
  all_goals simp only [List.length_cons]
  all_goals omega

/- ## `Enum` and `EnumRef`
(`components/tidb_query_datatype/src/codec/mysql/enums.rs`)

A `BufferVec` is a sequence of byte buffers; indexing it out of bounds panics
exactly like slice indexing, so it is embedded as a `List (List Nat)` and the
panicking index as `List.getElem?`. -/

/-- `Enum { data: Arc<BufferVec>, value: usize }`.  `value == 0` means the
empty MySQL enum; otherwise `value` is a 1-based index into `data`. -/
structure Enum where
  data : List (List Nat)
  value : Nat
  deriving DecidableEq

/-- `EnumRef { data: &BufferVec, value: usize }`. -/
structure EnumRef where
  data : List (List Nat)
  value : Nat
  deriving DecidableEq

/-- `Enum::as_ref`. -/
def Enum.as_ref (e : Enum) : EnumRef := ⟨e.data, e.value⟩

/-- `EnumRef::to_owned`. -/
def EnumRef.to_owned (e : EnumRef) : Enum := ⟨e.data, e.value⟩

/-- `EnumRef::is_empty`: `self.value == 0`. -/
def EnumRef.is_empty (e : EnumRef) : Bool := e.value == 0

/-- The error of the codec `Result` returned by `EnumRef::as_str`; the only
error the function itself can produce comes from `std::str::from_utf8`. -/
inductive CodecError where
  | utf8Error
  deriving DecidableEq

/-- `EnumRef::as_str`.  `none` models a Rust panic (the out-of-bounds
`BufferVec` index `self.data[self.value - 1]`); on success the `&str` is the
validated byte string itself. -/
def EnumRef.as_str (e : EnumRef) : Option (Except CodecError (List Nat)) :=
  if e.value = 0 then some (Except.ok [])
  else
    match e.data[e.value - 1]? with
    | none => none
    | some buf =>
      some (if validUtf8 buf then Except.ok buf else Except.error CodecError.utf8Error)

/-- `impl Display for EnumRef`: the bytes written to the formatter; `none`
models a Rust panic (the same out-of-bounds index as in `as_str`). -/
def EnumRef.fmtDisplay (e : EnumRef) : Option (List Nat) :=
  if e.value = 0 then some []
  else
    match e.data[e.value - 1]? with
    | none => none
    | some buf => some (utf8Lossy buf)

/-- `impl Display for Enum` delegates to `EnumRef`. -/
def Enum.fmtDisplay (e : Enum) : Option (List Nat) := e.as_ref.fmtDisplay

/-- `impl PartialEq for Enum`: `self.value == other.value`. -/
def Enum.eq (a b : Enum) : Bool := a.value == b.value

/-- `impl Ord for Enum`: `self.value.cmp(&other.value)`. -/
def Enum.cmp (a b : Enum) : Ordering := compare a.value b.value

/-- `impl PartialOrd for Enum`: `Some(self.cmp(right))`. -/
def Enum.pcmp (a b : Enum) : Option Ordering := some (Enum.cmp a b)

/-- `impl PartialEq for EnumRef`: `self.value == other.value`. -/
def EnumRef.eq (a b : EnumRef) : Bool := a.value == b.value

/-- `impl Ord for EnumRef`: `self.value.cmp(&other.value)`. -/
def EnumRef.cmp (a b : EnumRef) : Ordering := compare a.value b.value

/-- `impl PartialOrd for EnumRef`: `Some(self.cmp(right))`. -/
def EnumRef.pcmp (a b : EnumRef) : Option Ordering := some (EnumRef.cmp a b)

/-- The error type of `tidb_query_common::error::Result`; `as_mysql_bool` for
`Enum` never constructs it. -/
inductive EvalError where
  | other
  deriving DecidableEq

/-- `impl AsMySQLBool for Enum`: `Ok(self.value != 0)`. -/
def Enum.as_mysql_bool (e : Enum) : Except EvalError Bool :=
  Except.ok (e.value != 0)

/- ## The region-merge state machine

The raftstore implementation itself is not among the sources at hand (only its
failpoint tests are), so the state machine is modelled from the specification,
section by section. -/

/-- Modelled from the spec (§3): a region epoch `{version, conf_version}`;
version advances on key-range changes, conf_ver on replica-set changes. -/
structure RegionEpoch where
  version : Nat
  conf_ver : Nat
  deriving DecidableEq

/-- Modelled from the spec (§3): a region descriptor
`{id, start_key, end_key, epoch, peers}`. -/
structure Region where
  id : Nat
  start_key : List Nat
  end_key : List Nat
  epoch : RegionEpoch
  peers : List Nat
  deriving DecidableEq

/-- Modelled from the spec (§3): `PeerState ∈ {Normal, Merging, Applying,
Tombstone}`. -/
inductive PeerState where
  | normal
  | merging
  | applying
  | tombstone
  deriving DecidableEq

/-- Modelled from the spec (§3): `MergeState = {target_region,
commit_index_at_prepare, min_matched_log_index}`, created when PrepareMerge is
applied and consumed by CommitMerge or RollbackMerge. -/
structure MergeState where
  target_region : Nat
  commit_index_at_prepare : Nat
  min_matched_log_index : Nat
  deriving DecidableEq

/-- Modelled from the spec (§3): the persisted per-peer
`RegionLocalState = {state, region, merge_state}`. -/
structure RegionLocalState where
  state : PeerState
  region : Region
  merge_state : Option MergeState
  deriving DecidableEq

/-- Modelled from the spec (§3, §6): per-peer storage: the persisted
`RegionLocalState`, the acknowledged key/value data, and the index up to which
the raft log has been truncated by CompactLog. -/
structure PeerStorage where
  persisted : RegionLocalState
  kv : List (List Nat × List Nat)
  truncated_index : Nat
  deriving DecidableEq

/-- Modelled from the spec (§3): the admin-command variants carried as
consensus log entries. -/
inductive AdminCmd where
  | split (split_key : List Nat)
  | prepareMerge (target commit minIdx : Nat)
  | commitMerge (source : Region)
  | rollbackMerge
  | confChange (peer : Nat)
  deriving DecidableEq

/-- Modelled from the spec (§3, §8): applying a Split shrinks the range at the
split key and bumps the epoch version by exactly 1. -/
def applySplit (split_key : List Nat) (s : RegionLocalState) : RegionLocalState :=
  { s with region := { s.region with
      end_key := split_key,
      epoch := { s.region.epoch with version := s.region.epoch.version + 1 } } }

/-- Modelled from the spec (§4.2): applying PrepareMerge stores `MergeState`,
moves the peer to `Merging` and bumps the epoch version by exactly 1. -/
def applyPrepareMerge (target commit minIdx : Nat) (s : RegionLocalState) :
    RegionLocalState :=
  { s with
      state := PeerState.merging,
      merge_state := some ⟨target, commit, minIdx⟩,
      region := { s.region with
        epoch := { s.region.epoch with version := s.region.epoch.version + 1 } } }

/-- Modelled from the spec (§4.4, §8): applying RollbackMerge to a `Merging`
peer clears `MergeState`, returns the peer to `Normal` and bumps the epoch
version by exactly 1; on a peer that is not merging it is a no-op. -/
def applyRollbackMerge (s : RegionLocalState) : RegionLocalState :=
  if s.state = PeerState.merging then
    { s with
        state := PeerState.normal,
        merge_state := none,
        region := { s.region with
          epoch := { s.region.epoch with version := s.region.epoch.version + 1 } } }
  else s

/-- Modelled from the spec (§4.3): applying CommitMerge at the target extends
the range to cover the (left-adjacent) source region and bumps the epoch
version by 1. -/
def applyCommitMergeTarget (source : Region) (s : RegionLocalState) :
    RegionLocalState :=
  { s with region := { s.region with
      start_key := source.start_key,
      epoch := { s.region.epoch with version := s.region.epoch.version + 1 } } }

/-- Modelled from the spec (§4.3): once CommitMerge is confirmed, a caught-up
source replica transitions to `Tombstone`, consuming its merge state. -/
def applyCommitMergeSource (s : RegionLocalState) : RegionLocalState :=
  { s with state := PeerState.tombstone, merge_state := none }

/-- Modelled from the spec (§3): a conf change adds/removes a replica and
bumps `conf_ver` by 1. -/
def applyConfChange (peer : Nat) (s : RegionLocalState) : RegionLocalState :=
  { s with region := { s.region with
      peers := peer :: s.region.peers,
      epoch := { s.region.epoch with conf_ver := s.region.epoch.conf_ver + 1 } } }

/-- Modelled from the spec (§3, §4): the apply pipeline's dispatch of admin
commands over the persisted `RegionLocalState` (CompactLog, which touches only
the truncated index, is handled on `PeerStorage` below). -/
def applyAdmin : AdminCmd → RegionLocalState → RegionLocalState
  | AdminCmd.split k, s => applySplit k s
  | AdminCmd.prepareMerge t c m, s => applyPrepareMerge t c m s
  | AdminCmd.commitMerge src, s => applyCommitMergeTarget src s
  | AdminCmd.rollbackMerge, s => applyRollbackMerge s
  | AdminCmd.confChange p, s => applyConfChange p s

/-- Applying a sequence of committed admin commands in log order. -/
def applyAdminSeq (cmds : List AdminCmd) (s : RegionLocalState) : RegionLocalState :=
  cmds.foldl (fun t c => applyAdmin c t) s

/-- The proposal-rejection error of the spec (§7): epoch mismatch. -/
inductive ProposalError where
  | epochMismatch
  deriving DecidableEq

/-- Modelled from the spec (§4.1, §7): a proposal carrying a stale epoch
(older version or older conf_ver than the current region epoch) is rejected
with an epoch-mismatch error. -/
def checkRegionEpoch (proposed current : RegionEpoch) : Except ProposalError Unit :=
  if proposed.version < current.version ∨ proposed.conf_ver < current.conf_ver then
    Except.error ProposalError.epochMismatch
  else Except.ok ()

/-- Modelled from the spec (§4.1, §7): proposing an admin command checks the
carried epoch against the current one; a stale proposal is rejected rather
than applied. -/
def proposeAdmin (cmd : AdminCmd) (proposed : RegionEpoch) (s : RegionLocalState) :
    Except ProposalError RegionLocalState :=
  match checkRegionEpoch proposed s.region.epoch with
  | Except.error e => Except.error e
  | Except.ok _ => Except.ok (applyAdmin cmd s)

/-- Modelled from the spec (§4.4, §7): a conflicting conf change or split
observed while the source region is `Merging` triggers a RollbackMerge
proposal. -/
def onConflict (cmd : AdminCmd) (s : RegionLocalState) : Option AdminCmd :=
  if s.state = PeerState.merging then
    match cmd with
    | AdminCmd.confChange _ => some AdminCmd.rollbackMerge
    | AdminCmd.split _ => some AdminCmd.rollbackMerge
    | _ => none
  else none

/-- Modelled from the spec (§3): admin commands mutate only the persisted
`RegionLocalState`; RollbackMerge leaves the stored key/value data untouched. -/
def applyRollbackMergeStorage (p : PeerStorage) : PeerStorage :=
  { p with persisted := applyRollbackMerge p.persisted }

/-- Modelled from the spec (§4.6): while a merge is pending
(`merge_state` present), CompactLog may only advance the truncated index up to
`min(min_matched_log_index, compaction policy bound)`. -/
def applyCompactLog (bound : Nat) (p : PeerStorage) : PeerStorage :=
  match p.persisted.merge_state with
  | some ms => { p with truncated_index := min bound ms.min_matched_log_index }
  | none => { p with truncated_index := bound }

/-- Modelled from the spec (§4.6): the in-memory peer actor; its merging flag
mirrors the persisted merge state. -/
structure PeerFsm where
  storage : PeerStorage
  is_merging : Bool
  deriving DecidableEq

/-- Modelled from the spec (§4.6): on restart a peer reloads its persisted
`RegionLocalState` unchanged and re-derives the merging flag from the
persisted `merge_state`; merge intent is never silently lost. -/
def restartPeer (p : PeerStorage) : PeerFsm :=
  { storage := p, is_merging := p.persisted.merge_state.isSome }

/-- Modelled from the spec (§4.1 row 4, §4.5): whether one epoch is newer than
another (higher version, or same version with more conf changes). -/
def epochNewer (a b : RegionEpoch) : Bool :=
  decide (b.version < a.version) ||
    ((a.version == b.version) && decide (b.conf_ver < a.conf_ver))

/-- Modelled from the spec (§4.5): the state a snapshot embeds. -/
structure SnapshotMeta where
  state : PeerState
  region : Region
  merge_state : Option MergeState
  deriving DecidableEq

/-- Modelled from the spec (§4.1 row 4, §4.5): accepting a valid snapshot
adopts the snapshot's embedded state, and clears a locally-held `Merging`
marker, exactly when the snapshot's state is `Normal` or carries a newer
epoch (a post-merge state); any other snapshot leaves a merging replica's
state and `merge_state` intact. -/
def applySnapshot (snap : SnapshotMeta) (s : RegionLocalState) : RegionLocalState :=
  if s.state = PeerState.merging ∧
      ¬(snap.state = PeerState.normal ∨ epochNewer snap.region.epoch s.region.epoch = true) then
    s
  else
    { state := snap.state, region := snap.region, merge_state := snap.merge_state }

/-- Modelled from the spec (§4.6): the source and target of an in-flight merge
as seen from one node. -/
structure ClusterView where
  source : RegionLocalState
  target : RegionLocalState
  deriving DecidableEq

/-- Modelled from the spec (§4.6, §8): after a restart mid-merge, a source
peer persisted as `Merging` re-derives whether the merge already completed
cluster-wide and then either completes (source `Tombstone`, target absorbs the
range) or rolls back (source `Normal`); it never remains `Merging`. -/
def stabilizeAfterRestart (completed : Bool) (c : ClusterView) : ClusterView :=
  if c.source.state = PeerState.merging then
    if completed then
      { source := applyCommitMergeSource c.source,
        target := applyCommitMergeTarget c.source.region c.target }
    else
      { source := applyRollbackMerge c.source, target := c.target }
  else c

/-- Modelled from the spec (§8): a freshly bootstrapped region covering the
whole key space, at epoch version 1 and conf_ver 1. -/
def freshRegionState : RegionLocalState :=
  { state := PeerState.normal,
    region := { id := 1, start_key := [], end_key := [],
                epoch := { version := 1, conf_ver := 1 }, peers := [1] },
    merge_state := none }

/-- The left region after the split at `k2` in the rollback test. -/
def rollbackTraceStep1 : RegionLocalState := applySplit [107, 50] freshRegionState

/-- ... after the first PrepareMerge is applied. -/
def rollbackTraceStep2 : RegionLocalState := applyPrepareMerge 2 0 0 rollbackTraceStep1

/-- ... after the first RollbackMerge (triggered by a conf change). -/
def rollbackTraceStep3 : RegionLocalState := applyRollbackMerge rollbackTraceStep2

/-- ... after the second PrepareMerge is applied. -/
def rollbackTraceStep4 : RegionLocalState := applyPrepareMerge 2 0 0 rollbackTraceStep3

/-- ... after the second RollbackMerge (triggered by a split). -/
def rollbackTraceStep5 : RegionLocalState := applyRollbackMerge rollbackTraceStep4

/- ## Example states used by the witnesses -/

/-- A region at epoch (2, 2) replicated on three stores. -/
def exampleRegion : Region :=
  { id := 1, start_key := [], end_key := [107],
    epoch := { version := 2, conf_ver := 2 }, peers := [1, 2, 3] }

/-- A source peer mid-merge. -/
def exampleMergingState : RegionLocalState :=
  { state := PeerState.merging, region := exampleRegion,
    merge_state := some ⟨2, 10, 15⟩ }

/-- A peer not involved in any merge. -/
def exampleNormalState : RegionLocalState :=
  { state := PeerState.normal, region := exampleRegion, merge_state := none }

/-- Storage of a source peer mid-merge, holding one acknowledged key. -/
def exampleMergingStorage : PeerStorage :=
  { persisted := exampleMergingState, kv := [([107, 49], [118, 49])],
    truncated_index := 5 }

/-- A snapshot embedding a `Normal` (post-merge) state. -/
def exampleSnapshot : SnapshotMeta :=
  { state := PeerState.normal, region := exampleRegion, merge_state := none }

/-- A source/target pair with the source persisted as `Merging`. -/
def exampleCluster : ClusterView :=
  { source := exampleMergingState, target := exampleNormalState }

/- ## Helper lemmas -/

lemma applyAdmin_epoch_mono (cmd : AdminCmd) (s : RegionLocalState) :
    s.region.epoch.version ≤ (applyAdmin cmd s).region.epoch.version ∧
    s.region.epoch.conf_ver ≤ (applyAdmin cmd s).region.epoch.conf_ver := by
  cases cmd with
  | split k => exact ⟨Nat.le_succ _, le_refl _⟩
  | prepareMerge t c m => exact ⟨Nat.le_succ _, le_refl _⟩
  | commitMerge src => exact ⟨Nat.le_succ _, le_refl _⟩
  | rollbackMerge =>
    show s.region.epoch.version ≤ (applyRollbackMerge s).region.epoch.version ∧
      s.region.epoch.conf_ver ≤ (applyRollbackMerge s).region.epoch.conf_ver
    unfold applyRollbackMerge
    split
    · exact ⟨Nat.le_succ _, le_refl _⟩
    · exact ⟨le_refl _, le_refl _⟩
  | confChange p => exact ⟨le_refl _, Nat.le_succ _⟩

lemma applyAdminSeq_epoch_mono (cmds : List AdminCmd) (s : RegionLocalState) :
    s.region.epoch.version ≤ (applyAdminSeq cmds s).region.epoch.version ∧
    s.region.epoch.conf_ver ≤ (applyAdminSeq cmds s).region.epoch.conf_ver := by
  induction cmds generalizing s with
  | nil => exact ⟨le_refl _, le_refl _⟩
  | cons c cs ih =>
    have h1 := applyAdmin_epoch_mono c s
    have h2 := ih (applyAdmin c s)
    exact ⟨le_trans h1.1 h2.1, le_trans h1.2 h2.2⟩

/- ## The claims -/

/-- C1: each split, prepare-merge and rollback-merge step adds exactly 1 to
the epoch version, so the left region of the rollback test reads version 3
after split plus PrepareMerge and 4 after the RollbackMerge, and reads 6 — not
4, as the test's second region-state check expects — after the further
PrepareMerge-plus-RollbackMerge cycle. -/
theorem rollback_test_epoch_arithmetic :
    rollbackTraceStep2.region.epoch.version = 3 ∧
    rollbackTraceStep3.region.epoch.version = 4 ∧
    rollbackTraceStep5.region.epoch.version = 6 ∧
    rollbackTraceStep5.region.epoch.version ≠ 4 := by
  decide

/-- C2: a node restarted after PrepareMerge was applied (source persisted
`Merging`, target `Normal`) stabilizes to either full completion (source
`Tombstone`, target `Normal` covering the combined range) or full rollback
(source and target `Normal`); the source never remains `Merging`. -/
theorem restart_mid_merge_resolves (completed : Bool) (c : ClusterView)
    (hs : c.source.state = PeerState.merging)
    (ht : c.target.state = PeerState.normal) :
    (stabilizeAfterRestart completed c).source.state ≠ PeerState.merging ∧
    (((stabilizeAfterRestart completed c).source.state = PeerState.tombstone ∧
        (stabilizeAfterRestart completed c).target.state = PeerState.normal ∧
        (stabilizeAfterRestart completed c).target.region.start_key
          = c.source.region.start_key ∧
        (stabilizeAfterRestart completed c).target.region.end_key
          = c.target.region.end_key) ∨
      ((stabilizeAfterRestart completed c).source.state = PeerState.normal ∧
        (stabilizeAfterRestart completed c).target.state = PeerState.normal)) := by
  unfold stabilizeAfterRestart
  rw [if_pos hs]
  cases completed with
  | false =>
    refine ⟨?_, Or.inr ⟨?_, ?_⟩⟩ <;> simp [applyRollbackMerge, hs, ht]
  | true =>
    refine ⟨?_, Or.inl ⟨?_, ?_, ?_, ?_⟩⟩ <;>
      simp [applyCommitMergeSource, applyCommitMergeTarget, ht]

theorem restart_mid_merge_resolves_witness :
    (stabilizeAfterRestart true exampleCluster).source.state ≠ PeerState.merging ∧
    (((stabilizeAfterRestart true exampleCluster).source.state = PeerState.tombstone ∧
        (stabilizeAfterRestart true exampleCluster).target.state = PeerState.normal ∧
        (stabilizeAfterRestart true exampleCluster).target.region.start_key
          = exampleCluster.source.region.start_key ∧
        (stabilizeAfterRestart true exampleCluster).target.region.end_key
          = exampleCluster.target.region.end_key) ∨
      ((stabilizeAfterRestart true exampleCluster).source.state = PeerState.normal ∧
        (stabilizeAfterRestart true exampleCluster).target.state = PeerState.normal)) :=
  restart_mid_merge_resolves true exampleCluster rfl rfl

/-- C3: applying any admin command, or any sequence of committed admin
commands, never decreases the epoch version or conf_ver, and a proposal
carrying a stale epoch is rejected with an epoch-mismatch error rather than
applied. -/
theorem epoch_monotonic_and_stale_rejected
    (cmd : AdminCmd) (cmds : List AdminCmd) (pe : RegionEpoch)
    (s : RegionLocalState)
    (hstale : pe.version < s.region.epoch.version ∨
      pe.conf_ver < s.region.epoch.conf_ver) :
    s.region.epoch.version ≤ (applyAdmin cmd s).region.epoch.version ∧
    s.region.epoch.conf_ver ≤ (applyAdmin cmd s).region.epoch.conf_ver ∧
    s.region.epoch.version ≤ (applyAdminSeq cmds s).region.epoch.version ∧
    s.region.epoch.conf_ver ≤ (applyAdminSeq cmds s).region.epoch.conf_ver ∧
    proposeAdmin cmd pe s = Except.error ProposalError.epochMismatch := by
  refine ⟨(applyAdmin_epoch_mono cmd s).1, (applyAdmin_epoch_mono cmd s).2,
    (applyAdminSeq_epoch_mono cmds s).1, (applyAdminSeq_epoch_mono cmds s).2, ?_⟩
  unfold proposeAdmin checkRegionEpoch
  rw [if_pos hstale]

theorem epoch_monotonic_and_stale_rejected_witness :
    exampleNormalState.region.epoch.version
      ≤ (applyAdmin AdminCmd.rollbackMerge exampleNormalState).region.epoch.version ∧
    exampleNormalState.region.epoch.conf_ver
      ≤ (applyAdmin AdminCmd.rollbackMerge exampleNormalState).region.epoch.conf_ver ∧
    exampleNormalState.region.epoch.version
      ≤ (applyAdminSeq [] exampleNormalState).region.epoch.version ∧
    exampleNormalState.region.epoch.conf_ver
      ≤ (applyAdminSeq [] exampleNormalState).region.epoch.conf_ver ∧
    proposeAdmin AdminCmd.rollbackMerge ⟨1, 2⟩ exampleNormalState
      = Except.error ProposalError.epochMismatch :=
  epoch_monotonic_and_stale_rejected AdminCmd.rollbackMerge [] ⟨1, 2⟩
    exampleNormalState (Or.inl (by decide))

/-- C4: a conflicting conf change or split while the source is `Merging`
triggers a RollbackMerge; applying it clears `MergeState`, returns the peer to
`Normal`, bumps the epoch version by exactly 1, and every previously
acknowledged key remains readable. -/
theorem conflict_triggers_rollback_no_data_loss
    (p : PeerStorage) (cmd : AdminCmd)
    (hm : p.persisted.state = PeerState.merging)
    (hc : (∃ k, cmd = AdminCmd.split k) ∨ ∃ q, cmd = AdminCmd.confChange q) :
    onConflict cmd p.persisted = some AdminCmd.rollbackMerge ∧
    (applyRollbackMergeStorage p).persisted.merge_state = none ∧
    (applyRollbackMergeStorage p).persisted.state = PeerState.normal ∧
    (applyRollbackMergeStorage p).persisted.region.epoch.version
      = p.persisted.region.epoch.version + 1 ∧
    ∀ k v, p.kv.lookup k = some v →
      (applyRollbackMergeStorage p).kv.lookup k = some v := by
  refine ⟨?_, ?_, ?_, ?_, ?_⟩
  · rcases hc with ⟨k, rfl⟩ | ⟨q, rfl⟩ <;> simp [onConflict, hm]
  · simp [applyRollbackMergeStorage, applyRollbackMerge, hm]
  · simp [applyRollbackMergeStorage, applyRollbackMerge, hm]
  · simp [applyRollbackMergeStorage, applyRollbackMerge, hm]
  · intro k v h
    simpa [applyRollbackMergeStorage] using h

theorem conflict_triggers_rollback_no_data_loss_witness :
    onConflict (AdminCmd.split [107, 51]) exampleMergingStorage.persisted
      = some AdminCmd.rollbackMerge ∧
    (applyRollbackMergeStorage exampleMergingStorage).persisted.merge_state = none ∧
    (applyRollbackMergeStorage exampleMergingStorage).persisted.state
      = PeerState.normal ∧
    (applyRollbackMergeStorage exampleMergingStorage).persisted.region.epoch.version
      = exampleMergingStorage.persisted.region.epoch.version + 1 ∧
    ∀ k v, exampleMergingStorage.kv.lookup k = some v →
      (applyRollbackMergeStorage exampleMergingStorage).kv.lookup k = some v :=
  conflict_triggers_rollback_no_data_loss exampleMergingStorage
    (AdminCmd.split [107, 51]) rfl (Or.inl ⟨[107, 51], rfl⟩)

/-- C5: while a merge is pending, an applied CompactLog never advances the
truncated index beyond min(min_matched_log_index, policy bound), and this
holds across a restart, after which the merging flag is re-derived from the
persisted merge state. -/
theorem compact_log_suppressed_during_merge
    (p : PeerStorage) (bound : Nat) (ms : MergeState)
    (h : p.persisted.merge_state = some ms) :
    (restartPeer p).is_merging = true ∧
    (restartPeer p).storage = p ∧
    (applyCompactLog bound (restartPeer p).storage).truncated_index
      = min bound ms.min_matched_log_index ∧
    (applyCompactLog bound (restartPeer p).storage).truncated_index
      ≤ ms.min_matched_log_index ∧
    (applyCompactLog bound (restartPeer p).storage).truncated_index ≤ bound := by
  have heq : (applyCompactLog bound p).truncated_index
      = min bound ms.min_matched_log_index := by
    simp [applyCompactLog, h]
  have hs : (restartPeer p).storage = p := rfl
  refine ⟨by simp [restartPeer, h], rfl, ?_, ?_, ?_⟩
  · rw [hs, heq]
  · rw [hs, heq]; exact Nat.min_le_right _ _
  · rw [hs, heq]; exact Nat.min_le_left _ _

theorem compact_log_suppressed_during_merge_witness :
    (restartPeer exampleMergingStorage).is_merging = true ∧
    (restartPeer exampleMergingStorage).storage = exampleMergingStorage ∧
    (applyCompactLog 20 (restartPeer exampleMergingStorage).storage).truncated_index
      = min 20 (⟨2, 10, 15⟩ : MergeState).min_matched_log_index ∧
    (applyCompactLog 20 (restartPeer exampleMergingStorage).storage).truncated_index
      ≤ (⟨2, 10, 15⟩ : MergeState).min_matched_log_index ∧
    (applyCompactLog 20 (restartPeer exampleMergingStorage).storage).truncated_index
      ≤ 20 :=
  compact_log_suppressed_during_merge exampleMergingStorage 20 ⟨2, 10, 15⟩ rfl

/-- C6: for a replica holding a `Merging` marker, accepting a valid snapshot
clears the marker (adopting the snapshot's state) exactly when the snapshot's
embedded state is `Normal` or carries a newer epoch; any other snapshot leaves
the replica `Merging` with its `merge_state` intact. -/
theorem snapshot_clears_merging_iff_post_merge
    (snap : SnapshotMeta) (s : RegionLocalState)
    (hm : s.state = PeerState.merging) :
    ((snap.state = PeerState.normal ∨
        epochNewer snap.region.epoch s.region.epoch = true) →
      applySnapshot snap s =
        { state := snap.state, region := snap.region,
          merge_state := snap.merge_state }) ∧
    (¬(snap.state = PeerState.normal ∨
        epochNewer snap.region.epoch s.region.epoch = true) →
      applySnapshot snap s = s ∧
      (applySnapshot snap s).state = PeerState.merging ∧
      (applySnapshot snap s).merge_state = s.merge_state) := by
  constructor
  · intro hpost
    unfold applySnapshot
    rw [if_neg]
    exact fun hcon => hcon.2 hpost
  · intro hnot
    have hcond : s.state = PeerState.merging ∧
        ¬(snap.state = PeerState.normal ∨
          epochNewer snap.region.epoch s.region.epoch = true) := ⟨hm, hnot⟩
    unfold applySnapshot
    rw [if_pos hcond]
    exact ⟨rfl, hm, rfl⟩

theorem snapshot_clears_merging_iff_post_merge_witness :
    applySnapshot exampleSnapshot exampleMergingState =
      { state := exampleSnapshot.state, region := exampleSnapshot.region,
        merge_state := exampleSnapshot.merge_state } :=
  (snapshot_clears_merging_iff_post_merge exampleSnapshot exampleMergingState
    rfl).1 (Or.inl rfl)

/-- C7: applying RollbackMerge to an already-`Normal` region changes nothing;
double application equals single application, and the epoch version is bumped
exactly once (when the region was `Merging`), never twice. -/
theorem rollback_merge_idempotent (s : RegionLocalState) :
    (s.state = PeerState.normal → applyRollbackMerge s = s) ∧
    applyRollbackMerge (applyRollbackMerge s) = applyRollbackMerge s ∧
    (applyRollbackMerge (applyRollbackMerge s)).region.epoch.version
      ≤ s.region.epoch.version + 1 ∧
    (s.state = PeerState.merging →
      (applyRollbackMerge s).region.epoch.version
        = s.region.epoch.version + 1) := by
  by_cases hm : s.state = PeerState.merging
  · refine ⟨?_, ?_, ?_, ?_⟩
    · intro hn
      rw [hm] at hn
      exact absurd hn (by decide)
    · simp [applyRollbackMerge, hm]
    · simp [applyRollbackMerge, hm]
    · intro _
      simp [applyRollbackMerge, hm]
  · refine ⟨?_, ?_, ?_, ?_⟩
    · intro _
      simp [applyRollbackMerge, hm]
    · simp [applyRollbackMerge, hm]
    · simp [applyRollbackMerge, hm]
    · intro hn
      exact absurd hn hm

theorem rollback_merge_idempotent_witness :
    applyRollbackMerge exampleNormalState = exampleNormalState :=
  (rollback_merge_idempotent exampleNormalState).1 rfl

/-- C8: `EnumRef::as_str` returns `Ok("")` for value 0, the UTF-8 decoding of
`data[value - 1]` (or a UTF-8 error) for in-range values, and panics when
`value` exceeds `data.len()`; the Display implementation panics under exactly
the same condition. -/
theorem enumref_as_str_total_under_range (e : EnumRef) :
    (e.value = 0 → e.as_str = some (Except.ok [])) ∧
    (∀ buf, e.value ≠ 0 → e.data[e.value - 1]? = some buf →
      e.as_str = some (if validUtf8 buf then Except.ok buf
                       else Except.error CodecError.utf8Error)) ∧
    (e.data.length < e.value → e.as_str = none) ∧
    e.fmtDisplay.isNone = e.as_str.isNone := by
  refine ⟨?_, ?_, ?_, ?_⟩
  · intro h
    simp [EnumRef.as_str, h]
  · intro buf h0 hbuf
    simp [EnumRef.as_str, h0, hbuf]
  · intro h
    have h0 : ¬(e.value = 0) := by omega
    have hnone : e.data[e.value - 1]? = none := by
      apply List.getElem?_eq_none
      omega
    simp [EnumRef.as_str, h0, hnone]
  · by_cases h0 : e.value = 0
    · simp [EnumRef.as_str, EnumRef.fmtDisplay, h0]
    · rcases hbuf : e.data[e.value - 1]? with _ | buf <;>
        simp [EnumRef.as_str, EnumRef.fmtDisplay, h0, hbuf]

theorem enumref_as_str_total_under_range_witness :
    EnumRef.as_str ⟨[[97], [255]], 3⟩ = none :=
  (enumref_as_str_total_under_range ⟨[[97], [255]], 3⟩).2.2.1 (by decide)

/-- C9: equality, ordering and partial ordering of `Enum` and `EnumRef` depend
only on the `value` field; two enums over entirely different name lists with
the same index compare equal. -/
theorem enum_eq_cmp_value_only (d1 d2 : List (List Nat)) (v w : Nat) :
    Enum.eq ⟨d1, v⟩ ⟨d2, w⟩ = (v == w) ∧
    Enum.cmp ⟨d1, v⟩ ⟨d2, w⟩ = compare v w ∧
    Enum.pcmp ⟨d1, v⟩ ⟨d2, w⟩ = some (compare v w) ∧
    EnumRef.eq ⟨d1, v⟩ ⟨d2, w⟩ = (v == w) ∧
    EnumRef.cmp ⟨d1, v⟩ ⟨d2, w⟩ = compare v w ∧
    EnumRef.pcmp ⟨d1, v⟩ ⟨d2, w⟩ = some (compare v w) ∧
    Enum.eq ⟨d1, v⟩ ⟨d2, v⟩ = true ∧
    EnumRef.eq ⟨d1, v⟩ ⟨d2, v⟩ = true := by
  refine ⟨rfl, rfl, rfl, rfl, rfl, rfl, ?_, ?_⟩ <;> simp [Enum.eq, EnumRef.eq]

/-- C10: `as_mysql_bool` for `Enum` never returns an error: it returns
`Ok(value != 0)`, the negation of `EnumRef::is_empty` on the same value. -/
theorem enum_as_mysql_bool_never_errors (e : Enum) :
    Enum.as_mysql_bool e = Except.ok (!(e.value == 0)) ∧
    Enum.as_mysql_bool e = Except.ok (!(EnumRef.is_empty e.as_ref)) ∧
    (Enum.as_mysql_bool e).isOk = true :=
  ⟨rfl, rfl, rfl⟩
